import Mathlib

/-!
# Verification of the RTN fleet-tracking server (`src/server.py`)

Shallow embedding of the journey state machine, the stale-journey sweeps,
the split-journey corrector and the Valhalla route-reconstruction pipeline.

Conventions:
* SQLite tables are modelled as Lean lists of records (`List Journey`,
  `List TripPoint`); an SQL `UPDATE ... WHERE` is a `List.map` with a guard,
  `DELETE` is a `List.filter`, `INSERT` appends.
* `haversine` works on floats and trigonometry; the control flow of the
  program only ever compares its result against fixed thresholds, so the
  embedding is parametric in an abstract great-circle distance
  `dist : Coord → Coord → ℚ`.
* Python's `datetime.fromtimestamp(ts, IST).strftime("%Y-%m-%d")` /
  `.hour` are modelled by `ist_day` / `ist_hour` (IST = UTC+5:30 =
  19800 s); the day index `(ts + 19800) / 86400` is in bijection with the
  date string, and no claim inspects the string format itself.
-/

abbrev Coord := ℚ × ℚ

/-- Row of the `journeys` table (`init_db`): `departure_date` is kept as the
IST day index (see header). -/
structure Journey where
  journey_id : String
  bus_no : String
  departure_date : Int
  start_timestamp : Int
  end_timestamp : Option Int
  status : String
deriving DecidableEq, Repr

/-- Row of the `trip_points` table.  `journey_id` is nullable: the push path
can insert a point after ending a journey without creating a new one
(`on_message`, after `[WS JOURNEY END]`), which stores SQL NULL. -/
structure TripPoint where
  journey_id : Option String
  timestamp : Int
  lat : ℚ
  lon : ℚ
  speed : ℚ
deriving DecidableEq, Repr

/-- IST day index of a unix timestamp: models
`ts_to_ist(ts).strftime("%Y-%m-%d")` (bijectively, via days since epoch in
the fixed UTC+5:30 zone; Python's `//`-style flooring is `Int.fdiv`). -/
def ist_day (ts : Int) : Int := (ts + 19800).fdiv 86400

/-- IST hour (0..23) of a unix timestamp: models `ts_to_ist(ts).hour`. -/
def ist_hour (ts : Int) : Int := ((ts + 19800).emod 86400).fdiv 3600

-- ================= DATABASE helpers =================

/-- The rows `SELECT ... FROM journeys WHERE bus_no = ? AND status = 'active'`
would return. -/
def activeJourneys (db : List Journey) (bus : String) : List Journey :=
  db.filter (fun j => j.bus_no == bus && j.status == "active")

/-- `ORDER BY start_timestamp DESC LIMIT 1`: pick the row with the largest
`start_timestamp` (first such row on ties). -/
def pickLatest (acc : Option Journey) (j : Journey) : Option Journey :=
  match acc with
  | none => some j
  | some k => if k.start_timestamp < j.start_timestamp then some j else some k

/-- `get_active_journey` (server.py:102): id of the newest active journey of
`bus`, or `none`. -/
def get_active_journey (db : List Journey) (bus : String) : Option String :=
  ((activeJourneys db bus).foldl pickLatest none).map Journey.journey_id

/-- `generate_journey_id` (server.py:99): `f"{bus_no}_{int(time.time())}"`.
The wall-clock second at which the call executes is the explicit argument
`callTime`. -/
def generate_journey_id (bus_no : String) (callTime : Int) : String :=
  bus_no ++ "_" ++ toString callTime

/-- `create_new_journey` (server.py:118): insert an `'active'` row whose id
comes from `generate_journey_id` evaluated at the call's wall-clock time
(`callTime`), not from the `timestamp` argument.  Returns the new id and the
updated table. -/
def create_new_journey (bus_no : String) (timestamp : Int) (callTime : Int)
    (db : List Journey) : String × List Journey :=
  let journey_id := generate_journey_id bus_no callTime
  (journey_id,
   db ++ [⟨journey_id, bus_no, ist_day timestamp, timestamp, none, "active"⟩])

/-- `end_journey` (server.py:131):
`UPDATE journeys SET status='ended', end_timestamp=? WHERE journey_id=?`. -/
def end_journey (journey_id : String) (timestamp : Int)
    (db : List Journey) : List Journey :=
  db.map (fun j =>
    if j.journey_id = journey_id then
      { j with status := "ended", end_timestamp := some timestamp }
    else j)

-- ================= TRACKING LOOP (polling path) =================

/-- Per-bus in-memory entry of `fleet_state` on the polling path
(`tracking_loop`; the dict also carries a dead `"state": "ACTIVE"` key that
no code reads, which is omitted). -/
structure PollState where
  idle_start_time : Option Int
  idle_start_location : Option Coord
  last_timestamp : Int
  last_location : Option Coord
deriving DecidableEq, Repr

/-- Result of processing one polled sample: the two tables plus the mutated
in-memory state. -/
structure PollResult where
  journeys : List Journey
  points : List TripPoint
  state : PollState
deriving DecidableEq, Repr

/-- The `IDLE DETECTION` block of `tracking_loop` (server.py:301-342):
measures movement from the idle anchor (falling back to the previous
location when no anchor is set), stamps the anchor on the first stationary
sample, ends the active journey once the idle duration reaches 3600 s, and
clears the anchor on genuine movement.  Returns the mutated state, the
local `active_journey` variable and the journeys table. -/
def pollingIdlePhase (dist : Coord → Coord → ℚ) (st : PollState)
    (active : Option String) (p : Coord) (ts : Int) (db : List Journey) :
    PollState × Option String × List Journey :=
  let movement_from_last : ℚ :=
    match st.last_location with
    | some l => dist l p
    | none => 0
  let movement_from_anchor : ℚ :=
    match st.idle_start_location with
    | some a => dist a p
    | none => movement_from_last
  if movement_from_anchor ≤ 3/10 then
    -- within IDLE_ANCHOR_RADIUS (0.3 km)
    let st :=
      if st.idle_start_time = none then
        { st with idle_start_time := some ts, idle_start_location := some p }
      else st
    match active, st.idle_start_time with
    | some jid, some t0 =>
      if ts - t0 ≥ 3600 then
        ({ st with idle_start_time := none, idle_start_location := none },
         none, end_journey jid ts db)
      else (st, active, db)
    | _, _ => (st, active, db)
  else
    ({ st with idle_start_time := none, idle_start_location := none },
     active, db)

/-- One `tracking_loop` iteration for one bus after a successful trackApp
response (server.py:277-366): state init, active-journey fetch, idle
detection, movement-gated journey creation, then the `trip_points` insert.
The source calls `int(time.time())` once for `timestamp` and again inside
`generate_journey_id`; sequentially both happen in the same second, so the
creation's `callTime` is `ts`. -/
def processPollingSample (dist : Coord → Coord → ℚ) (db : List Journey)
    (tps : List TripPoint) (st? : Option PollState) (bus : String)
    (p : Coord) (speed : ℚ) (ts : Int) : PollResult :=
  let st := st?.getD ⟨none, none, ts, none⟩
  let active := get_active_journey db bus
  match pollingIdlePhase dist st active p ts db with
  | (st, active, db) =>
    match active with
    | none =>
      if speed > 5 then
        -- MOVEMENT_THRESHOLD = 5
        match create_new_journey bus ts ts db with
        | (jid, db) =>
          ⟨db, tps ++ [⟨some jid, ts, p.1, p.2, speed⟩],
           { st with last_location := some p, last_timestamp := ts }⟩
      else
        -- `continue`: stationary with no journey, nothing persisted and
        -- last_location/last_timestamp not updated
        ⟨db, tps, st⟩
    | some jid =>
      ⟨db, tps ++ [⟨some jid, ts, p.1, p.2, speed⟩],
       { st with last_location := some p, last_timestamp := ts }⟩

-- ================= WEBSOCKET LISTENER (push path) =================

/-- Per-bus in-memory entry of `fleet_state` on the push path
(`websocket_listener.on_message`). -/
structure WsState where
  idle_start_time : Option Int
  idle_location : Option Coord
  last_location : Option Coord
  last_signal_time : Int
deriving DecidableEq, Repr

/-- Result of processing one push message. -/
structure PushResult where
  journeys : List Journey
  points : List TripPoint
  state : WsState
deriving DecidableEq, Repr

/-- The `IDLE DETECTION` block of `on_message` (server.py:464-501).  The
source pairs `idle_start_time` with `idle_location` (always set and cleared
together); the impossible combination `(some t0, none)` is left as a no-op
to keep the function total. -/
def pushIdlePhase (dist : Coord → Coord → ℚ) (st : WsState)
    (active : Option String) (p : Coord) (ts : Int) (db : List Journey) :
    WsState × Option String × List Journey :=
  match active with
  | none => (st, active, db)
  | some jid =>
    match st.last_location with
    | none => (st, active, db)
    | some ll =>
      let distance := dist ll p
      if distance ≤ 1/20 then
        (if st.idle_start_time = none then
           { st with idle_start_time := some ts, idle_location := some p }
         else st, active, db)
      else
        let movement := dist ll p
        if movement ≤ 3/20 then
          match st.idle_start_time, st.idle_location with
          | none, _ =>
            ({ st with idle_start_time := some ts, idle_location := some p },
             active, db)
          | some t0, some il =>
            let idle_duration := ts - t0
            let idle_distance := dist il p
            if idle_duration ≥ 3600 ∧ idle_distance ≤ 3/10 then
              ({ st with idle_start_time := none, idle_location := none },
               none, end_journey jid ts db)
            else (st, active, db)
          | some _, none => (st, active, db)
        else
          ({ st with idle_start_time := none, idle_location := none },
           active, db)

/-- The `GPS LOSS DETECTION` block of `on_message` (server.py:433-441):
when the signal gap reaches 3600 s and a journey is active, end it at `ts`
and immediately create a replacement journey.
`if state.get("last_signal_time"):` is Python truthiness, hence the
`≠ 0` guard. -/
def pushGpsLossPhase (st : WsState) (active : Option String) (bus : String)
    (ts : Int) (db : List Journey) : List Journey :=
  if st.last_signal_time ≠ 0 then
    if ts - st.last_signal_time ≥ 3600 then
      match active with
      | some jid => (create_new_journey bus ts ts (end_journey jid ts db)).2
      | none => db
    else db
  else db

/-- The rest of one `on_message` invocation for a successful payload carrying
a position (server.py:394-515), continuing `pushGpsLossPhase` above: state
init, GPS-loss handling, re-fetch, movement-gated creation when no journey
is active (with an early `return` that only records the location), idle
detection, then the `trip_points` insert.  The recorded speed is the
literal `0` of server.py:413. -/
def processPushSample (dist : Coord → Coord → ℚ) (db : List Journey)
    (tps : List TripPoint) (st? : Option WsState) (bus : String)
    (p : Coord) (ts : Int) : PushResult :=
  let st := st?.getD ⟨none, none, none, ts⟩
  let active := get_active_journey db bus
  let db := pushGpsLossPhase st active bus ts db
  let st := { st with last_signal_time := ts }
  -- Re-fetch after possible GPS loss journey change
  let active := get_active_journey db bus
  match active with
  | none =>
    let moved : Bool :=
      match st.last_location with
      | some l => decide (dist l p > 3/10)   -- RESUME_DISTANCE_KM
      | none => false
    if moved then
      match create_new_journey bus ts ts db with
      | (jid, db) =>
        match pushIdlePhase dist st (some jid) p ts db with
        | (st, active, db) =>
          ⟨db, tps ++ [⟨active, ts, p.1, p.2, 0⟩],
           { st with last_location := some p }⟩
    else
      -- wait for actual movement: only last_location is updated, no insert
      ⟨db, tps, { st with last_location := some p }⟩
  | some jid =>
    match pushIdlePhase dist st (some jid) p ts db with
    | (st, active, db) =>
      ⟨db, tps ++ [⟨active, ts, p.1, p.2, 0⟩],
       { st with last_location := some p }⟩

-- ================= STALE-JOURNEY SWEEPS =================

/-- `MAX(tp.timestamp)` over the points of one journey (`LEFT JOIN` +
`GROUP BY`): `none` when the journey has no points. -/
def lastPing (tps : List TripPoint) (jid : String) : Option Int :=
  (tps.filter (fun p => p.journey_id == some jid)).foldl
    (fun acc p =>
      match acc with
      | none => some p.timestamp
      | some m => some (max m p.timestamp))
    none

/-- The `WHERE j.status = 'active' ... HAVING last_ping < cutoff OR
last_ping IS NULL` selection shared by both sweeps (cutoff = now - 3600). -/
def isStale (tps : List TripPoint) (now : Int) (j : Journey) : Bool :=
  j.status == "active" &&
    (match lastPing tps j.journey_id with
     | some lp => decide (lp < now - 3600)
     | none => true)

/-- `end_ts = last_ping if last_ping else now` of `auto_end_stale_journeys`
(server.py:185).  Python truthiness: a ping at unix time 0 also falls back
to `now`. -/
def autoEndTs (tps : List TripPoint) (now : Int) (j : Journey) : Int :=
  match lastPing tps j.journey_id with
  | some lp => if lp ≠ 0 then lp else now
  | none => now

/-- `end_ts = last_ping if last_ping else start_ts` of the
`/end-stale-journeys` endpoint (server.py:1112). -/
def endpointEndTs (tps : List TripPoint) (j : Journey) : Int :=
  match lastPing tps j.journey_id with
  | some lp => if lp ≠ 0 then lp else j.start_timestamp
  | none => j.start_timestamp

/-- `auto_end_stale_journeys` (server.py:144): select the stale active
journeys, then `end_journey` each at `autoEndTs`.  The 10-minute
`_last_stale_check` throttle is scheduling, not store semantics, and is
not part of the sweep itself. -/
def auto_end_stale_journeys (db : List Journey) (tps : List TripPoint)
    (now : Int) : List Journey :=
  (db.filter (isStale tps now)).foldl
    (fun d j => end_journey j.journey_id (autoEndTs tps now j) d) db

/-- The apply (POST) mode of `/end-stale-journeys` (server.py:1075): same
selection, but sample-less journeys are closed at their start time. -/
def end_stale_journeys (db : List Journey) (tps : List TripPoint)
    (now : Int) : List Journey :=
  (db.filter (isStale tps now)).foldl
    (fun d j => end_journey j.journey_id (endpointEndTs tps j) d) db

-- ================= FIX SPLIT JOURNEYS =================

/-- The candidate test of `fix_split_journeys` (server.py:998-1010) on a
consecutive pair `(a, b)` of one bus's journeys: `a` ended in the 00:00-06:00
IST window, the stored departure dates differ, and the gap is under
15 minutes; a pair whose `a` has no end timestamp is skipped. -/
def splitCandidate (a b : Journey) : Bool :=
  match a.end_timestamp with
  | none => false
  | some e =>
    decide (0 ≤ ist_hour e) && decide (ist_hour e < 6) &&
      (a.departure_date != b.departure_date) &&
      decide (b.start_timestamp - e < 900)

/-- Consecutive pairs `(journeys[i], journeys[i+1])` of a chronologically
ordered per-bus journey list (the `for i in range(len(journeys) - 1)`
loop). -/
def consecPairs : List Journey → List (Journey × Journey)
  | a :: b :: rest => (a, b) :: consecPairs (b :: rest)
  | _ => []

/-- The flagged pairs for one bus's chronologically ordered journey list. -/
def splitCandidates (js : List Journey) : List (Journey × Journey) :=
  (consecPairs js).filter (fun q => splitCandidate q.1 q.2)

/-- One merge of the apply (POST) mode of `fix_split_journeys`
(server.py:1041-1060): reassign the dropped journey's points, copy the
dropped row's `end_timestamp`/`status` onto the kept row (reading the first
row matching `drop_id`, as `fetchone` does), then delete the dropped row. -/
def applyMerge (keep_id drop_id : String) (db : List Journey)
    (tps : List TripPoint) : List Journey × List TripPoint :=
  let tps' := tps.map (fun q =>
    if q.journey_id = some drop_id then { q with journey_id := some keep_id }
    else q)
  let drop_row := (db.filter (fun j => j.journey_id == drop_id)).head?
  let db' : List Journey :=
    match drop_row with
    | some dr =>
      db.map (fun j =>
        if j.journey_id = keep_id then
          { j with end_timestamp := dr.end_timestamp, status := dr.status }
        else j)
    | none => db
  (db'.filter (fun j => !(j.journey_id == drop_id)), tps')

-- ================= VALHALLA ROUTE RECONSTRUCTION =================

/-- One `(lat, lon, timestamp)` row fed to `match_points_valhalla`. -/
structure RawPoint where
  lat : ℚ
  lon : ℚ
  ts : Int
deriving DecidableEq, Repr

/-- The jitter-filter loop body (server.py:692-696): keep a point only when
it is more than 0.02 km from the last kept point. -/
def jitterGo (dist : Coord → Coord → ℚ) (last : RawPoint) :
    List RawPoint → List RawPoint
  | [] => []
  | row :: rest =>
    if dist (last.lat, last.lon) (row.lat, row.lon) > 1/50 then
      row :: jitterGo dist row rest
    else jitterGo dist last rest

/-- Step 1 of `match_points_valhalla`: `filtered = [rows[0]]` then the
keep-if-far loop. -/
def jitterFilter (dist : Coord → Coord → ℚ) :
    List RawPoint → List RawPoint
  | [] => []
  | r :: rest => r :: jitterGo dist r rest

/-- The gap-splitting loop of step 2 (server.py:704-718) without the
`len(current) >= 2` emission filter: every piece is emitted.  `cur` is the
running `current` list (always nonempty at call sites); the gap is measured
from `current[-1]`. -/
def splitGo (cur : List RawPoint) : List RawPoint → List (List RawPoint)
  | [] => [cur]
  | row :: rest =>
    if row.ts - (cur.getLastD ⟨0, 0, 0⟩).ts > 600 then
      cur :: splitGo [row] rest
    else splitGo (cur ++ [row]) rest

/-- The full partition of a sample list at >600 s gaps. -/
def splitGaps : List RawPoint → List (List RawPoint)
  | [] => []
  | r :: rest => splitGo [r] rest

/-- The gap-splitting loop exactly as written (server.py:704-718): a piece
reaches `segments` only when it has at least 2 points. -/
def segGo (cur : List RawPoint) : List RawPoint → List (List RawPoint)
  | [] => if 2 ≤ cur.length then [cur] else []
  | row :: rest =>
    if row.ts - (cur.getLastD ⟨0, 0, 0⟩).ts > 600 then
      (if 2 ≤ cur.length then [cur] else []) ++ segGo [row] rest
    else segGo (cur ++ [row]) rest

/-- Step 2 of `match_points_valhalla`: the `segments` list. -/
def segments : List RawPoint → List (List RawPoint)
  | [] => []
  | r :: rest => segGo [r] rest

/-- `range(0, len(segment), BATCH - 1)` batching (server.py:730-733):
batches of up to 100 points starting every 99 points (adjacent batches
overlap by one point); a batch of fewer than 2 points is skipped.
Structurally recursive on a fuel bounded by the list length (each step
drops 99 elements; source loops over the finite index range). -/
def mkBatchesGo : Nat → List RawPoint → List (List RawPoint)
  | 0, _ => []
  | fuel + 1, s =>
    if s.length ≤ 99 then (if 2 ≤ s.length then [s] else [])
    else s.take 100 :: mkBatchesGo fuel (s.drop 99)

/-- All submitted batches of one segment, in order. -/
def mkBatches (s : List RawPoint) : List (List RawPoint) :=
  mkBatchesGo s.length s

/-- Outcome of one Valhalla `/trace_route` call for one batch, abstracted:
`none` is a non-200 response or a raised exception; `some g` is a 200
response whose decoded leg geometry is `g` (possibly empty).  The decoded
polyline itself (`decode_polyline6`) is inside the abstraction. -/
abbrev MatchOracle := List RawPoint → Option (List Coord)

/-- Per-batch output (server.py:752-791): the decoded leg geometry when the
call succeeds and yields at least one coordinate, otherwise the batch's raw
`[lat, lon]` points. -/
def batchOutput (oracle : MatchOracle) (batch : List RawPoint) :
    List Coord :=
  match oracle batch with
  | none => batch.map (fun r => (r.lat, r.lon))
  | some leg_coords =>
    if leg_coords.isEmpty then batch.map (fun r => (r.lat, r.lon))
    else leg_coords

/-- `match_points_valhalla` (server.py:681-794): the short-input guards, the
jitter filter, the gap split, then per-segment batching with the per-batch
oracle, concatenated in order. -/
def match_points_valhalla (dist : Coord → Coord → ℚ)
    (oracle : MatchOracle) (rows : List RawPoint) : List Coord :=
  if rows.length < 2 then []
  else
    let rows := jitterFilter dist rows
    if rows.length < 2 then []
    else
      ((segments rows).map
        (fun segment =>
          ((mkBatches segment).map (batchOutput oracle)).flatten)).flatten

-- ================= INVARIANT: at most one active journey =================

/-- C1's invariant: each vehicle has at most one `'active'` row. -/
def invariantOneActive (db : List Journey) : Prop :=
  ∀ bus, (activeJourneys db bus).length ≤ 1

lemma activeJourneys_append (db l : List Journey) (bus : String) :
    activeJourneys (db ++ l) bus =
      activeJourneys db bus ++ activeJourneys l bus := by
  simp [activeJourneys, List.filter_append]

lemma activeJourneys_end_journey (jid : String) (ts : Int)
    (db : List Journey) (bus : String) :
    activeJourneys (end_journey jid ts db) bus =
      (activeJourneys db bus).filter (fun j => !(j.journey_id == jid)) := by
  induction db with
  | nil => rfl
  | cons j db ih =>
    simp only [end_journey, activeJourneys, List.map_cons, List.filter_cons]
      at ih ⊢
    by_cases hj : j.journey_id = jid <;>
      by_cases hb : j.bus_no = bus <;>
      by_cases hs : j.status = "active" <;>
      simp [hj, hb, hs, ih, List.filter_cons]

lemma pickLatest_isSome (acc : Option Journey) (j : Journey) :
    (pickLatest acc j).isSome := by
  cases acc with
  | none => rfl
  | some k => simp [pickLatest]; split <;> rfl

lemma foldl_pickLatest_some (l : List Journey) (acc : Option Journey)
    (h : acc.isSome) : (l.foldl pickLatest acc).isSome := by
  induction l generalizing acc with
  | nil => exact h
  | cons j l ih => exact ih _ (pickLatest_isSome acc j)

lemma foldl_pickLatest_mem (l : List Journey) :
    ∀ (acc : Option Journey) (j : Journey),
      l.foldl pickLatest acc = some j → j ∈ l ∨ acc = some j := by
  induction l with
  | nil => exact fun acc j h => Or.inr h
  | cons k l ih =>
    intro acc j h
    rcases ih (pickLatest acc k) j h with hm | he
    · exact Or.inl (List.mem_cons_of_mem _ hm)
    · cases acc with
      | none =>
        have hkj : k = j := by simpa [pickLatest] using he
        exact Or.inl (hkj ▸ List.mem_cons_self _ _)
      | some a =>
        by_cases hlt : a.start_timestamp < k.start_timestamp
        · have hkj : k = j := by simpa [pickLatest, hlt] using he
          exact Or.inl (hkj ▸ List.mem_cons_self _ _)
        · exact Or.inr (by simpa [pickLatest, hlt] using he)

lemma get_active_none_iff (db : List Journey) (bus : String) :
    get_active_journey db bus = none ↔ activeJourneys db bus = [] := by
  constructor
  · intro h
    by_contra hne
    cases hl : activeJourneys db bus with
    | nil => exact hne hl
    | cons j l =>
      have hs : ((activeJourneys db bus).foldl pickLatest none).isSome := by
        rw [hl]
        exact foldl_pickLatest_some l (pickLatest none j) (pickLatest_isSome _ _)
      unfold get_active_journey at h
      rcases Option.isSome_iff_exists.mp hs with ⟨k, hk⟩
      rw [hk] at h
      simp at h
  · intro h
    simp [get_active_journey, h]

lemma get_active_some_mem (db : List Journey) (bus : String) (jid : String)
    (h : get_active_journey db bus = some jid) :
    ∃ j ∈ activeJourneys db bus, j.journey_id = jid := by
  unfold get_active_journey at h
  cases hf : (activeJourneys db bus).foldl pickLatest none with
  | none => rw [hf] at h; simp at h
  | some j =>
    rw [hf] at h
    simp at h
    rcases foldl_pickLatest_mem _ _ _ hf with hm | he
    · exact ⟨j, hm, h⟩
    · simp at he

lemma mem_singleton_of_length_le_one {l : List Journey} {j : Journey}
    (hlen : l.length ≤ 1) (hm : j ∈ l) : l = [j] := by
  cases l with
  | nil => simp at hm
  | cons a t =>
    cases t with
    | nil => simp at hm; simp [hm]
    | cons b t => simp at hlen

lemma invariantOneActive_end (jid : String) (ts : Int) {db : List Journey}
    (h : invariantOneActive db) :
    invariantOneActive (end_journey jid ts db) := by
  intro bus
  rw [activeJourneys_end_journey]
  exact le_trans (List.length_filter_le _ _) (h bus)

lemma invariantOneActive_create {db : List Journey} (bus : String)
    (ts callTime : Int) (h : invariantOneActive db)
    (hnone : get_active_journey db bus = none) :
    invariantOneActive (create_new_journey bus ts callTime db).2 := by
  intro bus'
  unfold create_new_journey
  rw [activeJourneys_append]
  by_cases hb : bus' = bus
  · subst hb
    rw [(get_active_none_iff db bus').mp hnone]
    simp [activeJourneys]
  · have hbb : (bus == bus') = false := by
      simp only [beq_eq_false_iff_ne, ne_eq]
      exact fun hc => hb hc.symm
    have hnil : activeJourneys
        [⟨generate_journey_id bus callTime, bus, ist_day ts, ts, none,
          "active"⟩] bus' = [] := by
      simp [activeJourneys, List.filter_cons, hbb]
    rw [hnil]
    simpa using h bus'

lemma get_active_end_self {db : List Journey} {bus jid : String} (ts : Int)
    (h : invariantOneActive db)
    (hact : get_active_journey db bus = some jid) :
    get_active_journey (end_journey jid ts db) bus = none := by
  rw [get_active_none_iff, activeJourneys_end_journey]
  rcases get_active_some_mem db bus jid hact with ⟨j, hm, hid⟩
  rw [mem_singleton_of_length_le_one (h bus) hm]
  simp [hid]

lemma invariantOneActive_end_create {db : List Journey} {bus jid : String}
    (ts ts' callTime : Int) (h : invariantOneActive db)
    (hact : get_active_journey db bus = some jid) :
    invariantOneActive
      (create_new_journey bus ts callTime (end_journey jid ts' db)).2 :=
  invariantOneActive_create bus ts callTime
    (invariantOneActive_end jid ts' h)
    (get_active_end_self ts' h hact)

-- ================= PHASE CASE ANALYSES =================

/-- The polling idle phase either leaves `active_journey` and the journeys
table untouched, or (only when a journey was active) ends exactly that
journey at `ts` and sets `active_journey` to `None`. -/
lemma pollingIdlePhase_cases (dist : Coord → Coord → ℚ) (st : PollState)
    (active : Option String) (p : Coord) (ts : Int) (db : List Journey) :
    (∃ st', pollingIdlePhase dist st active p ts db = (st', active, db)) ∨
    (∃ jid st', active = some jid ∧
      pollingIdlePhase dist st active p ts db =
        (st', none, end_journey jid ts db)) := by
  obtain ⟨it, il, lt, ll⟩ := st
  unfold pollingIdlePhase
  dsimp only
  cases active with
  | none =>
    left
    cases it <;> split <;> exact ⟨_, rfl⟩
  | some jid =>
    cases it with
    | none =>
      split
      · left
        rw [if_pos rfl]
        dsimp only
        rw [if_neg (by omega : ¬ ts - ts ≥ 3600)]
        exact ⟨_, rfl⟩
      · left; exact ⟨_, rfl⟩
    | some t0 =>
      split
      · rw [if_neg (by simp : ¬ (some t0 = (none : Option Int)))]
        dsimp only
        by_cases hdur : ts - t0 ≥ 3600
        · right
          exact ⟨jid, _, rfl, by rw [if_pos hdur]⟩
        · left
          rw [if_neg hdur]
          exact ⟨_, rfl⟩
      · left; exact ⟨_, rfl⟩

/-- The push idle phase either leaves `active_journey` and the journeys
table untouched, or ends the active journey at `ts` and sets
`active_journey` to `None`. -/
lemma pushIdlePhase_cases (dist : Coord → Coord → ℚ) (st : WsState)
    (active : Option String) (p : Coord) (ts : Int) (db : List Journey) :
    (∃ st', pushIdlePhase dist st active p ts db = (st', active, db)) ∨
    (∃ jid st', active = some jid ∧
      pushIdlePhase dist st active p ts db =
        (st', none, end_journey jid ts db)) := by
  obtain ⟨it, iloc, ll, lst⟩ := st
  unfold pushIdlePhase
  dsimp only
  cases active with
  | none => exact Or.inl ⟨_, rfl⟩
  | some jid =>
    cases ll with
    | none => exact Or.inl ⟨_, rfl⟩
    | some l =>
      dsimp only
      by_cases h1 : dist l p ≤ 1/20
      · rw [if_pos h1]
        left
        cases it <;> exact ⟨_, rfl⟩
      · rw [if_neg h1]
        by_cases h2 : dist l p ≤ 3/20
        · rw [if_pos h2]
          cases it with
          | none => exact Or.inl ⟨_, rfl⟩
          | some t0 =>
            cases iloc with
            | none => exact Or.inl ⟨_, rfl⟩
            | some il =>
              dsimp only
              by_cases h3 : ts - t0 ≥ 3600 ∧ dist il p ≤ 3/10
              · rw [if_pos h3]
                exact Or.inr ⟨jid, _, rfl, rfl⟩
              · rw [if_neg h3]
                exact Or.inl ⟨_, rfl⟩
        · rw [if_neg h2]
          exact Or.inl ⟨_, rfl⟩

lemma invariant_pushIdlePhase (dist : Coord → Coord → ℚ) (st : WsState)
    (active : Option String) (p : Coord) (ts : Int) {db : List Journey}
    (h : invariantOneActive db) :
    invariantOneActive (pushIdlePhase dist st active p ts db).2.2 := by
  rcases pushIdlePhase_cases dist st active p ts db with
    ⟨st', heq⟩ | ⟨jid, st', _, heq⟩ <;> rw [heq]
  · exact h
  · exact invariantOneActive_end jid ts h

lemma invariant_pushGpsLossPhase {db : List Journey} (st : WsState)
    (bus : String) (ts : Int) (h : invariantOneActive db) :
    invariantOneActive
      (pushGpsLossPhase st (get_active_journey db bus) bus ts db) := by
  unfold pushGpsLossPhase
  split
  · split
    · cases hga : get_active_journey db bus with
      | none => simpa [hga] using h
      | some jid =>
        simp only [hga]
        exact invariantOneActive_end_create ts ts ts h hga
    · exact h
  · exact h

-- ================= CLAIM C1 =================

/-- C1: for every vehicle the `journeys` table holds at most one row with
that `bus_no` and `status = 'active'`, and every journey-creating operation
— the polling-path movement-gated creation, the push-path movement-gated
creation, and the push-path GPS-loss end-and-recreate (all reached through
`processPollingSample` / `processPushSample`) — preserves this invariant. -/
theorem C1_at_most_one_active_preserved (dist : Coord → Coord → ℚ)
    (db : List Journey) (tps : List TripPoint) (stP : Option PollState)
    (stW : Option WsState) (bus : String) (p : Coord) (speed : ℚ) (ts : Int)
    (h : invariantOneActive db) :
    invariantOneActive
      (processPollingSample dist db tps stP bus p speed ts).journeys ∧
    invariantOneActive
      (processPushSample dist db tps stW bus p ts).journeys := by
  constructor
  · unfold processPollingSample
    dsimp only
    rcases pollingIdlePhase_cases dist (stP.getD ⟨none, none, ts, none⟩)
        (get_active_journey db bus) p ts db with
      ⟨st', heq⟩ | ⟨jid, st', hact, heq⟩
    · rw [heq]
      dsimp only
      cases hga : get_active_journey db bus with
      | none =>
        by_cases hsp : speed > 5
        · rw [if_pos hsp]
          simpa [create_new_journey] using
            invariantOneActive_create bus ts ts h hga
        · rw [if_neg hsp]
          exact h
      | some jid => exact h
    · rw [heq]
      dsimp only
      by_cases hsp : speed > 5
      · rw [if_pos hsp]
        simpa [create_new_journey] using
          invariantOneActive_create bus ts ts (invariantOneActive_end jid ts h)
            (get_active_end_self ts h hact)
      · rw [if_neg hsp]
        exact invariantOneActive_end jid ts h
  · unfold processPushSample
    dsimp only
    have h2 : invariantOneActive
        (pushGpsLossPhase (stW.getD ⟨none, none, none, ts⟩)
          (get_active_journey db bus) bus ts db) :=
      invariant_pushGpsLossPhase (stW.getD ⟨none, none, none, ts⟩) bus ts h
    generalize hdb2 : pushGpsLossPhase (stW.getD ⟨none, none, none, ts⟩)
      (get_active_journey db bus) bus ts db = db2 at *
    cases hga2 : get_active_journey db2 bus with
    | none =>
      dsimp only
      cases hll : (stW.getD ⟨none, none, none, ts⟩).last_location with
      | none =>
        dsimp only
        exact h2
      | some l =>
        dsimp only
        by_cases hd : dist l p > 3/10
        · rw [if_pos (by simpa using hd)]
          have h3 : invariantOneActive (create_new_journey bus ts ts db2).2 :=
            invariantOneActive_create bus ts ts h2 hga2
          dsimp only [create_new_journey] at h3 ⊢
          exact invariant_pushIdlePhase dist _ _ p ts h3
        · rw [if_neg (by simpa using hd)]
          exact h2
    | some jid =>
      dsimp only
      exact invariant_pushIdlePhase dist _ _ p ts h2

/-- Witness for C1 at a concrete input. -/
theorem C1_witness :
    invariantOneActive
      (processPollingSample (fun _ _ => 0) [] [] none "B" (0, 0) 8
        100).journeys ∧
    invariantOneActive
      (processPushSample (fun _ _ => 0) [] [] none "B" (0, 0) 100).journeys :=
  C1_at_most_one_active_preserved (fun _ _ => 0) [] [] none none "B" (0, 0) 8
    100 (fun bus => by simp [activeJourneys])

-- ================= CLAIM C2 =================

lemma end_journey_sets (jid : String) (ts : Int) (db : List Journey) :
    ∀ j ∈ end_journey jid ts db, j.journey_id = jid →
      j.status = "ended" ∧ j.end_timestamp = some ts := by
  intro j hj hid
  unfold end_journey at hj
  rcases List.mem_map.mp hj with ⟨r, _, hmap⟩
  by_cases h : r.journey_id = jid
  · rw [if_pos h] at hmap
    rw [← hmap]
    exact ⟨rfl, rfl⟩
  · rw [if_neg h] at hmap
    rw [← hmap] at hid
    exact absurd hid h

lemma end_journey_length (jid : String) (ts : Int) (db : List Journey) :
    (end_journey jid ts db).length = db.length :=
  List.length_map _ _

/-- A sample within 300 m of the set idle anchor leaves the whole idle state
(and the table) untouched, unless the 1-hour end condition fires. -/
lemma pollingIdlePhase_in_radius_keep (dist : Coord → Coord → ℚ)
    (st : PollState) (active : Option String) (p : Coord) (ts : Int)
    (db : List Journey) (a : Coord) (t0 : Int)
    (hloc : st.idle_start_location = some a)
    (htime : st.idle_start_time = some t0)
    (hrad : dist a p ≤ 3/10)
    (hno : active = none ∨ ts - t0 < 3600) :
    pollingIdlePhase dist st active p ts db = (st, active, db) := by
  obtain ⟨it, il, lt, ll⟩ := st
  simp only at hloc htime
  subst hloc htime
  unfold pollingIdlePhase
  dsimp only
  rw [if_pos hrad, if_neg (by simp : ¬ (some t0 = (none : Option Int)))]
  cases active with
  | none => rfl
  | some jid =>
    dsimp only
    rcases hno with hno | hno
    · exact absurd hno (by simp)
    · rw [if_neg (by omega : ¬ ts - t0 ≥ 3600)]

/-- The 1-hour idle ending step: end the journey at `ts`, clear the anchor,
touch nothing else. -/
lemma pollingIdlePhase_end (dist : Coord → Coord → ℚ) (st : PollState)
    (jid : String) (p : Coord) (ts : Int) (db : List Journey) (a : Coord)
    (t0 : Int)
    (hloc : st.idle_start_location = some a)
    (htime : st.idle_start_time = some t0)
    (hrad : dist a p ≤ 3/10)
    (hdur : ts - t0 ≥ 3600) :
    pollingIdlePhase dist st (some jid) p ts db =
      ({ st with idle_start_time := none, idle_start_location := none },
       none, end_journey jid ts db) := by
  obtain ⟨it, il, lt, ll⟩ := st
  simp only at hloc htime
  subst hloc htime
  unfold pollingIdlePhase
  dsimp only
  rw [if_pos hrad, if_neg (by simp : ¬ (some t0 = (none : Option Int)))]
  dsimp only
  rw [if_pos hdur]

/-- C2: in the polling-path idle detection the distance is measured from the
idle anchor, so (i) one sample within 300 m of the anchor resets neither
`idle_start_time` nor the anchor location (and leaves the table unchanged)
as long as the 1-hour ending does not fire; (ii) over any sequence of such
samples (no active journey) the timer set at the first stationary sample is
never reset; (iii) once a journey is active and `ts - idle_start_time`
reaches 3600 s within the anchor radius, exactly that journey is ended with
`end_timestamp = ts`, the anchor is cleared, `active_journey` becomes
`None`, and the ending step creates no journey row (the table keeps its
length, rows only updated by `end_journey`). -/
theorem C2_idle_anchor_behaviour (dist : Coord → Coord → ℚ) :
    (∀ (st : PollState) (active : Option String) (p : Coord) (ts : Int)
       (db : List Journey) (a : Coord) (t0 : Int),
       st.idle_start_location = some a → st.idle_start_time = some t0 →
       dist a p ≤ 3/10 → (active = none ∨ ts - t0 < 3600) →
       (pollingIdlePhase dist st active p ts db).1.idle_start_time = some t0 ∧
       (pollingIdlePhase dist st active p ts db).1.idle_start_location =
         some a ∧
       (pollingIdlePhase dist st active p ts db).2.2 = db) ∧
    (∀ (samples : List (Coord × Int)) (st : PollState) (a : Coord) (t0 : Int)
       (db : List Journey),
       st.idle_start_location = some a → st.idle_start_time = some t0 →
       (∀ q ∈ samples, dist a q.1 ≤ 3/10) →
       (samples.foldl
           (fun s q => (pollingIdlePhase dist s none q.1 q.2 db).1)
           st).idle_start_time = some t0 ∧
       (samples.foldl
           (fun s q => (pollingIdlePhase dist s none q.1 q.2 db).1)
           st).idle_start_location = some a) ∧
    (∀ (st : PollState) (jid : String) (p : Coord) (ts : Int)
       (db : List Journey) (a : Coord) (t0 : Int),
       st.idle_start_location = some a → st.idle_start_time = some t0 →
       dist a p ≤ 3/10 → ts - t0 ≥ 3600 →
       pollingIdlePhase dist st (some jid) p ts db =
         ({ st with idle_start_time := none, idle_start_location := none },
          none, end_journey jid ts db) ∧
       (∀ j ∈ end_journey jid ts db, j.journey_id = jid →
          j.status = "ended" ∧ j.end_timestamp = some ts) ∧
       (end_journey jid ts db).length = db.length) := by
  refine ⟨?_, ?_, ?_⟩
  · intro st active p ts db a t0 hloc htime hrad hno
    rw [pollingIdlePhase_in_radius_keep dist st active p ts db a t0 hloc
      htime hrad hno]
    exact ⟨htime, hloc, rfl⟩
  · intro samples
    induction samples with
    | nil => intro st a t0 db hloc htime _; exact ⟨htime, hloc⟩
    | cons q qs ih =>
      intro st a t0 db hloc htime hin
      have hkeep := pollingIdlePhase_in_radius_keep dist st none q.1 q.2 db
        a t0 hloc htime (hin q (List.mem_cons_self _ _)) (Or.inl rfl)
      simp only [List.foldl_cons, hkeep]
      exact ih st a t0 db hloc htime
        (fun r hr => hin r (List.mem_cons_of_mem _ hr))
  · intro st jid p ts db a t0 hloc htime hrad hdur
    exact ⟨pollingIdlePhase_end dist st jid p ts db a t0 hloc htime hrad
        hdur,
      end_journey_sets jid ts db, end_journey_length jid ts db⟩

/-- Witness for C2 at a concrete input: anchor stamped at time 0, sample at
time 3600, active journey `"J"` ends at 3600 and the anchor is cleared. -/
theorem C2_witness :
    pollingIdlePhase (fun _ _ => 0) ⟨some 0, some (0, 0), 0, none⟩
        (some "J") (0, 0) 3600 [⟨"J", "B", 0, 0, none, "active"⟩] =
      (⟨none, none, 0, none⟩, none,
        end_journey "J" 3600 [⟨"J", "B", 0, 0, none, "active"⟩]) :=
  ((C2_idle_anchor_behaviour (fun _ _ => 0)).2.2
    ⟨some 0, some (0, 0), 0, none⟩ "J" (0, 0) 3600
    [⟨"J", "B", 0, 0, none, "active"⟩] (0, 0) 0 rfl rfl (by norm_num)
    (by norm_num)).1

-- ================= CLAIM C7 =================

/-- Counterexample to C7 as stated: two creations with the same `bus_no`
("B") and the same `start_timestamp` (100), executed at different wall-clock
seconds (100 vs 200), yield different journey ids — `generate_journey_id`
embeds `int(time.time())` at call time, not the start timestamp. -/
theorem C7_counterexample :
    (create_new_journey "B" 100 100 []).1 ≠
      (create_new_journey "B" 100 200 []).1 := by
  decide

/-- C7 amended: `journey_id` is a deterministic function of
`(bus_no, wall-clock call second)` — the `timestamp` argument and the table
contents play no part — so two creation calls executing at the same second
for the same bus collide even across different start timestamps. -/
theorem C7_amended_journey_id_from_call_time (bus : String)
    (ts1 ts2 callTime : Int) (db1 db2 : List Journey) :
    (create_new_journey bus ts1 callTime db1).1 =
      (create_new_journey bus ts2 callTime db2).1 ∧
    (create_new_journey bus ts1 callTime db1).1 =
      generate_journey_id bus callTime :=
  ⟨rfl, rfl⟩

-- ================= CLAIM C3 =================

/-- `UPDATE` by `journey_id` as a row transformer. -/
def endFn (jid : String) (ts : Int) (j : Journey) : Journey :=
  if j.journey_id = jid then
    { j with status := "ended", end_timestamp := some ts }
  else j

lemma end_journey_eq_map (jid : String) (ts : Int) (db : List Journey) :
    end_journey jid ts db = db.map (endFn jid ts) := rfl

/-- The row-level effect of folding `end_journey` over a list of stale
journeys. -/
def rowSweep (ets : Journey → Int) (L : List Journey) (r : Journey) :
    Journey :=
  L.foldl (fun r j => endFn j.journey_id (ets j) r) r

lemma map_rowSweep_nil (ets : Journey → Int) (d : List Journey) :
    d.map (rowSweep ets []) = d := by
  induction d with
  | nil => rfl
  | cons x d ih =>
    simp only [List.map_cons, ih]
    rfl

lemma foldl_end_eq_map (ets : Journey → Int) :
    ∀ (L : List Journey) (d : List Journey),
      L.foldl (fun d j => end_journey j.journey_id (ets j) d) d =
        d.map (rowSweep ets L) := by
  intro L
  induction L with
  | nil =>
    intro d
    simp only [List.foldl_nil]
    exact (map_rowSweep_nil ets d).symm
  | cons j L ih =>
    intro d
    simp only [List.foldl_cons]
    rw [end_journey_eq_map, ih, List.map_map]
    rfl

lemma rowSweep_fix (ets : Journey → Int) (L : List Journey) (x : Journey)
    (h : ∀ j ∈ L, endFn j.journey_id (ets j) x = x) :
    rowSweep ets L x = x := by
  induction L with
  | nil => rfl
  | cons j L ih =>
    unfold rowSweep
    simp only [List.foldl_cons]
    rw [h j (List.mem_cons_self _ _)]
    exact ih (fun k hk => h k (List.mem_cons_of_mem _ hk))

lemma rowSweep_unique (ets : Journey → Int) (L : List Journey) (r : Journey)
    (hL : ∀ j ∈ L, j.journey_id = r.journey_id → j = r) (hrL : r ∈ L) :
    rowSweep ets L r =
      { r with status := "ended", end_timestamp := some (ets r) } := by
  induction L with
  | nil => simp at hrL
  | cons j L ih =>
    unfold rowSweep
    simp only [List.foldl_cons]
    by_cases hid : r.journey_id = j.journey_id
    · have hjr : j = r := hL j (List.mem_cons_self _ _) hid.symm
      subst hjr
      rw [show endFn j.journey_id (ets j) j =
          { j with status := "ended", end_timestamp := some (ets j) } by
        simp [endFn]]
      exact rowSweep_fix ets L _ (fun k hk => by
        by_cases hk2 : k.journey_id = j.journey_id
        · have hkj : k = j := hL k (List.mem_cons_of_mem _ hk) hk2
          subst hkj
          simp [endFn]
        · have hne : ¬ ({ j with
              status := "ended"
              end_timestamp := some (ets j) } : Journey).journey_id =
                k.journey_id := fun hc => hk2 (by simpa using hc.symm)
          simp [endFn, hne])
    · have hrL' : r ∈ L := by
        rcases List.mem_cons.mp hrL with h | h
        · exact absurd (h ▸ rfl) hid
        · exact h
      rw [show endFn j.journey_id (ets j) r = r by simp [endFn, hid]]
      exact ih (fun k hk hk2 => hL k (List.mem_cons_of_mem _ hk) hk2) hrL'

/-- Concrete journey used by the C3 counterexample: active, no samples. -/
def staleNoPings : Journey := ⟨"J1", "B", 0, 1000, none, "active"⟩

/-- Counterexample to C3 as stated: for an active journey with no samples,
the automatic sweep (`auto_end_stale_journeys`) sets `end_timestamp` to the
current wall-clock time (10000000), not to the journey's start time
(1000). -/
theorem C3_counterexample :
    auto_end_stale_journeys [staleNoPings] [] 10000000 =
      [{ staleNoPings with
          status := "ended"
          end_timestamp := some 10000000 }] ∧
    staleNoPings.start_timestamp = 1000 ∧ (10000000 : Int) ≠ 1000 := by
  refine ⟨?_, rfl, by decide⟩
  rfl

/-- C3 amended: both sweeps select active journeys whose last ping is older
than 3600 s (or absent).  For a selected journey with a (truthy) last ping
both sweeps close it at that last-ping timestamp; with no ping the
`/end-stale-journeys` endpoint closes it at the journey's start time while
the in-loop `auto_end_stale_journeys` closes it at the current wall-clock
time. -/
theorem C3_amended_stale_end_timestamps (db : List Journey)
    (tps : List TripPoint) (now : Int) (r : Journey) (hr : r ∈ db)
    (huniq : ∀ j ∈ db, j.journey_id = r.journey_id → j = r)
    (hstale : isStale tps now r = true) :
    ({ r with
        status := "ended"
        end_timestamp := some (endpointEndTs tps r) } ∈
      end_stale_journeys db tps now) ∧
    ({ r with
        status := "ended"
        end_timestamp := some (autoEndTs tps now r) } ∈
      auto_end_stale_journeys db tps now) ∧
    (lastPing tps r.journey_id = none →
      endpointEndTs tps r = r.start_timestamp ∧ autoEndTs tps now r = now) ∧
    (∀ lp, lastPing tps r.journey_id = some lp → lp ≠ 0 →
      endpointEndTs tps r = lp ∧ autoEndTs tps now r = lp) := by
  have hmemL : r ∈ db.filter (isStale tps now) :=
    List.mem_filter.mpr ⟨hr, hstale⟩
  have hLuniq : ∀ j ∈ db.filter (isStale tps now),
      j.journey_id = r.journey_id → j = r :=
    fun j hj => huniq j (List.mem_filter.mp hj).1
  refine ⟨?_, ?_, ?_, ?_⟩
  · unfold end_stale_journeys
    rw [foldl_end_eq_map]
    rw [← rowSweep_unique (endpointEndTs tps) _ r hLuniq hmemL]
    exact List.mem_map_of_mem _ hr
  · unfold auto_end_stale_journeys
    rw [foldl_end_eq_map]
    rw [← rowSweep_unique (autoEndTs tps now) _ r hLuniq hmemL]
    exact List.mem_map_of_mem _ hr
  · intro hnone
    simp [endpointEndTs, autoEndTs, hnone]
  · intro lp hlp hne
    simp [endpointEndTs, autoEndTs, hlp, hne]

/-- Witness for the amended C3 at a concrete input. -/
theorem C3_witness :
    ({ staleNoPings with status := "ended", end_timestamp := some 1000 } ∈
      end_stale_journeys [staleNoPings] [] 10000000) ∧
    ({ staleNoPings with status := "ended", end_timestamp := some 10000000 } ∈
      auto_end_stale_journeys [staleNoPings] [] 10000000) := by
  have h := C3_amended_stale_end_timestamps [staleNoPings] [] 10000000
    staleNoPings (List.mem_singleton_self _)
    (fun j hj _ => List.mem_singleton.mp hj) (by decide)
  exact ⟨h.1, h.2.1⟩

-- ================= CLAIM C4 =================

lemma pollingIdlePhase_none (dist : Coord → Coord → ℚ) (st : PollState)
    (p : Coord) (ts : Int) (db : List Journey) :
    ∃ st', pollingIdlePhase dist st none p ts db = (st', none, db) := by
  rcases pollingIdlePhase_cases dist st none p ts db with
    ⟨st', h⟩ | ⟨jid, st', hact, h⟩
  · exact ⟨st', h⟩
  · exact absurd hact (by simp)

lemma pushGpsLossPhase_skip (st : WsState) (active : Option String)
    (bus : String) (ts : Int) (db : List Journey)
    (h : st.last_signal_time = 0 ∨ ts - st.last_signal_time < 3600) :
    pushGpsLossPhase st active bus ts db = db := by
  unfold pushGpsLossPhase
  rcases h with h | h
  · rw [if_neg (by simp [h])]
  · by_cases h0 : st.last_signal_time ≠ 0
    · rw [if_pos h0, if_neg (by omega)]
    · rw [if_neg h0]

lemma pushIdlePhase_moving (dist : Coord → Coord → ℚ) (st : WsState)
    (jid : String) (p : Coord) (ts : Int) (db : List Journey) (l : Coord)
    (hll : st.last_location = some l) (hgt : dist l p > 3/20) :
    pushIdlePhase dist st (some jid) p ts db =
      ({ st with idle_start_time := none, idle_location := none },
       some jid, db) := by
  obtain ⟨it, il, ll, lst⟩ := st
  simp only at hll
  subst hll
  unfold pushIdlePhase
  dsimp only
  rw [if_neg (by linarith), if_neg (by linarith)]

/-- Push-path state for the C4 counterexample: a previous location is
recorded 1 km away (under the witness distance), no idle anchor, and a
recent signal. -/
def c4PushState : WsState := ⟨none, none, some (0, 0), 50⟩

/-- Counterexample to C4 as stated: on the push path the recorded speed is
the literal `0` (not above the 5 km/h threshold), yet with no active journey
the sample IS persisted — one journey row and one `trip_points` row appear —
because push-path creation is gated on moved distance, not speed. -/
theorem C4_counterexample :
    get_active_journey [] "S1" = none ∧
    ¬ ((0 : ℚ) > 5) ∧
    (processPushSample (fun _ _ => 1) [] [] (some c4PushState) "S1" (1, 1)
        100).journeys =
      [⟨generate_journey_id "S1" 100, "S1", ist_day 100, 100, none,
        "active"⟩] ∧
    (processPushSample (fun _ _ => 1) [] [] (some c4PushState) "S1" (1, 1)
        100).points =
      [⟨some (generate_journey_id "S1" 100), 100, 1, 1, 0⟩] := by
  have hmain :
      (processPushSample (fun _ _ => 1) [] [] (some c4PushState) "S1" (1, 1)
          100).journeys =
        [⟨generate_journey_id "S1" 100, "S1", ist_day 100, 100, none,
          "active"⟩] ∧
      (processPushSample (fun _ _ => 1) [] [] (some c4PushState) "S1" (1, 1)
          100).points =
        [⟨some (generate_journey_id "S1" 100), 100, 1, 1, 0⟩] := by
    unfold processPushSample
    dsimp only [Option.getD_some]
    rw [pushGpsLossPhase_skip _ _ _ _ _
      (Or.inr (by norm_num [c4PushState]))]
    rw [show get_active_journey [] "S1" = none from rfl]
    dsimp only [c4PushState]
    rw [if_pos (by simp only [decide_eq_true_eq]; norm_num :
      (decide ((fun _ _ => (1 : ℚ)) ((0 : ℚ), (0 : ℚ)) (1, 1) > 3/10)) =
        true)]
    dsimp only [create_new_journey]
    rw [pushIdlePhase_moving (fun _ _ => 1) _
      (generate_journey_id "S1" 100) (1, 1) 100 _ (0, 0) rfl (by norm_num)]
    exact ⟨rfl, rfl⟩
  exact ⟨rfl, by norm_num, hmain.1, hmain.2⟩

/-- C4 amended: when a vehicle has no active journey, the polling path
persists the sample iff `speed > 5` km/h (then exactly one journey plus one
referencing trip point appear); the push path records speed `0` for every
sample and instead persists iff the vehicle's last recorded location lies
more than 0.3 km away (then exactly one journey plus one referencing trip
point appear); otherwise no rows are written. -/
theorem C4_amended_movement_gate (dist : Coord → Coord → ℚ)
    (db : List Journey) (tps : List TripPoint) (bus : String) (p : Coord)
    (ts : Int) (hnone : get_active_journey db bus = none) :
    (∀ (stP : Option PollState) (speed : ℚ),
      (speed > 5 →
        (processPollingSample dist db tps stP bus p speed ts).journeys =
          db ++ [⟨generate_journey_id bus ts, bus, ist_day ts, ts, none,
            "active"⟩] ∧
        (processPollingSample dist db tps stP bus p speed ts).points =
          tps ++ [⟨some (generate_journey_id bus ts), ts, p.1, p.2,
            speed⟩]) ∧
      (¬ speed > 5 →
        (processPollingSample dist db tps stP bus p speed ts).journeys =
          db ∧
        (processPollingSample dist db tps stP bus p speed ts).points =
          tps)) ∧
    (∀ s : WsState, s.last_signal_time = 0 ∨ ts - s.last_signal_time < 3600 →
      ((∃ l, s.last_location = some l ∧ dist l p > 3/10) →
        (processPushSample dist db tps (some s) bus p ts).journeys =
          db ++ [⟨generate_journey_id bus ts, bus, ist_day ts, ts, none,
            "active"⟩] ∧
        (processPushSample dist db tps (some s) bus p ts).points =
          tps ++ [⟨some (generate_journey_id bus ts), ts, p.1, p.2, 0⟩]) ∧
      ((∀ l, s.last_location = some l → ¬ dist l p > 3/10) →
        (processPushSample dist db tps (some s) bus p ts).journeys = db ∧
        (processPushSample dist db tps (some s) bus p ts).points = tps)) := by
  constructor
  · intro stP speed
    unfold processPollingSample
    dsimp only
    rw [hnone]
    rcases pollingIdlePhase_none dist (stP.getD ⟨none, none, ts, none⟩) p ts
        db with ⟨st', heq⟩
    rw [heq]
    dsimp only
    constructor
    · intro hsp
      rw [if_pos hsp]
      exact ⟨rfl, rfl⟩
    · intro hsp
      rw [if_neg hsp]
      exact ⟨rfl, rfl⟩
  · intro s hsig
    unfold processPushSample
    dsimp only [Option.getD_some]
    rw [pushGpsLossPhase_skip _ _ _ _ _ hsig, hnone]
    dsimp only
    constructor
    · rintro ⟨l, hl, hd⟩
      rw [hl]
      dsimp only
      rw [if_pos (by simpa using hd)]
      dsimp only [create_new_journey]
      rw [pushIdlePhase_moving dist
        ⟨s.idle_start_time, s.idle_location, some l, ts⟩
        (generate_journey_id bus ts) p ts _ l rfl (by linarith)]
      exact ⟨rfl, rfl⟩
    · intro hno
      cases hll : s.last_location with
      | none =>
        exact ⟨rfl, rfl⟩
      | some l =>
        dsimp only
        rw [if_neg (by simpa using hno l hll)]
        exact ⟨rfl, rfl⟩

/-- Witness for the amended C4 at concrete inputs: polling with speed 8
creates exactly one journey; the push path (speed recorded 0) creates and
stores after a >0.3 km move. -/
theorem C4_witness :
    (processPollingSample (fun _ _ => (1 : ℚ)) [] [] none "B" (1, 1) 8
        100).journeys =
      [⟨generate_journey_id "B" 100, "B", ist_day 100, 100, none,
        "active"⟩] ∧
    (processPushSample (fun _ _ => (1 : ℚ)) [] [] (some c4PushState) "B"
        (1, 1) 100).points =
      [⟨some (generate_journey_id "B" 100), 100, 1, 1, 0⟩] := by
  have h := C4_amended_movement_gate (fun _ _ => (1 : ℚ)) [] [] "B" (1, 1)
    100 rfl
  constructor
  · simpa using ((h.1 none 8).1 (by norm_num)).1
  · simpa using
      ((h.2 c4PushState (Or.inr (by norm_num [c4PushState]))).1
        ⟨(0, 0), rfl, by norm_num⟩).2

-- ================= CLAIM C5 =================

lemma splitCandidate_iff (a b : Journey) :
    splitCandidate a b = true ↔
      ∃ e, a.end_timestamp = some e ∧ 0 ≤ ist_hour e ∧ ist_hour e < 6 ∧
        a.departure_date ≠ b.departure_date ∧
        b.start_timestamp - e < 900 := by
  unfold splitCandidate
  cases he : a.end_timestamp with
  | none => simp
  | some e =>
    simp only [Bool.and_eq_true, decide_eq_true_eq, bne_iff_ne, ne_eq,
      Option.some.injEq]
    constructor
    · rintro ⟨⟨⟨h1, h2⟩, h3⟩, h4⟩
      exact ⟨e, rfl, h1, h2, h3, h4⟩
    · rintro ⟨e', he', h1, h2, h3, h4⟩
      cases he'
      exact ⟨⟨⟨h1, h2⟩, h3⟩, h4⟩

lemma head?_filter_uniq (db : List Journey) (bj : Journey) (hmem : bj ∈ db)
    (huniq : ∀ j ∈ db, j.journey_id = bj.journey_id → j = bj) :
    (db.filter (fun j => j.journey_id == bj.journey_id)).head? =
      some bj := by
  induction db with
  | nil => simp at hmem
  | cons j db ih =>
    by_cases hj : j.journey_id = bj.journey_id
    · have hjb : j = bj := huniq j (List.mem_cons_self _ _) hj
      subst hjb
      simp [List.filter_cons, hj]
    · rw [List.filter_cons_of_neg (by simpa using hj)]
      have hmem' : bj ∈ db := by
        rcases List.mem_cons.mp hmem with h | h
        · exact absurd (h ▸ rfl : j.journey_id = bj.journey_id) hj
        · exact h
      exact ih hmem' (fun k hk => huniq k (List.mem_cons_of_mem _ hk))

/-- C5: the corrector flags a consecutive pair `(A, B)` of one bus's
chronological journey list iff `A.end_timestamp` exists and falls in the
00:00-06:00 IST window, the two stored `departure_date`s differ, and
`B.start_timestamp - A.end_timestamp < 900`; applying one merge reassigns
every `trip_points` row of `B` to the kept id, copies `B`'s former
`end_timestamp`/`status` onto the kept journey, and removes `B`'s row. -/
theorem C5_split_journey_corrector :
    (∀ (js : List Journey) (a b : Journey),
      (a, b) ∈ splitCandidates js ↔
        ((a, b) ∈ consecPairs js ∧
         ∃ e, a.end_timestamp = some e ∧ 0 ≤ ist_hour e ∧ ist_hour e < 6 ∧
           a.departure_date ≠ b.departure_date ∧
           b.start_timestamp - e < 900)) ∧
    (∀ (db : List Journey) (tps : List TripPoint) (bj : Journey)
       (keep_id : String),
      bj ∈ db →
      (∀ j ∈ db, j.journey_id = bj.journey_id → j = bj) →
      keep_id ≠ bj.journey_id →
      (∀ q ∈ (applyMerge keep_id bj.journey_id db tps).2,
         q.journey_id ≠ some bj.journey_id) ∧
      (∀ q ∈ tps, q.journey_id = some bj.journey_id →
         { q with journey_id := some keep_id } ∈
           (applyMerge keep_id bj.journey_id db tps).2) ∧
      (∀ q ∈ tps, q.journey_id ≠ some bj.journey_id →
         q ∈ (applyMerge keep_id bj.journey_id db tps).2) ∧
      (∀ j ∈ db, j.journey_id = keep_id →
         { j with end_timestamp := bj.end_timestamp, status := bj.status } ∈
           (applyMerge keep_id bj.journey_id db tps).1) ∧
      (∀ j ∈ (applyMerge keep_id bj.journey_id db tps).1,
         j.journey_id ≠ bj.journey_id)) := by
  constructor
  · intro js a b
    unfold splitCandidates
    rw [List.mem_filter]
    exact and_congr_right (fun _ => splitCandidate_iff a b)
  · intro db tps bj keep_id hmem huniq hne
    have hdrop : (db.filter
        (fun j => j.journey_id == bj.journey_id)).head? = some bj :=
      head?_filter_uniq db bj hmem huniq
    refine ⟨?_, ?_, ?_, ?_, ?_⟩
    · intro q hq
      unfold applyMerge at hq
      dsimp only at hq
      rcases List.mem_map.mp hq with ⟨r, _, hr⟩
      by_cases hid : r.journey_id = some bj.journey_id
      · rw [if_pos hid] at hr
        rw [← hr]
        simpa using fun hc => hne hc
      · rw [if_neg hid] at hr
        rw [← hr]
        exact hid
    · intro q hq hid
      unfold applyMerge
      dsimp only
      exact List.mem_map.mpr ⟨q, hq, by simp [hid]⟩
    · intro q hq hid
      unfold applyMerge
      dsimp only
      exact List.mem_map.mpr ⟨q, hq, by simp [hid]⟩
    · intro j hj hid
      unfold applyMerge
      dsimp only
      rw [hdrop]
      dsimp only
      refine List.mem_filter.mpr ⟨List.mem_map.mpr ⟨j, hj, by simp [hid]⟩,
        ?_⟩
      simpa using fun hc => hne (hid ▸ hc)
    · intro j hj
      unfold applyMerge at hj
      dsimp only at hj
      have := (List.mem_filter.mp hj).2
      simpa using this

/-- Journey A of the C5 witness: ends at unix 70200 = 01:00 IST. -/
def c5A : Journey := ⟨"JA", "B1", 0, 60000, some 70200, "ended"⟩

/-- Journey B of the C5 witness: starts 480 s later on the next stored
departure date. -/
def c5B : Journey := ⟨"JB", "B1", 1, 70680, some 80000, "ended"⟩

/-- The single stored point of journey B in the C5 witness. -/
def c5Pts : List TripPoint := [⟨some "JB", 70700, 1, 1, 0⟩]

/-- Witness for C5 at a concrete input: the pair is flagged, and after the
merge A carries B's end/status, B is gone, and B's point references A. -/
theorem C5_witness :
    ((c5A, c5B) ∈ splitCandidates [c5A, c5B]) ∧
    ({ c5A with end_timestamp := some 80000, status := "ended" } ∈
      (applyMerge "JA" "JB" [c5A, c5B] c5Pts).1) ∧
    (∀ j ∈ (applyMerge "JA" "JB" [c5A, c5B] c5Pts).1,
      j.journey_id ≠ "JB") ∧
    ((⟨some "JA", 70700, 1, 1, 0⟩ : TripPoint) ∈
      (applyMerge "JA" "JB" [c5A, c5B] c5Pts).2) := by
  have h := C5_split_journey_corrector
  have hmerge := h.2 [c5A, c5B] c5Pts c5B "JA"
    (List.mem_cons_of_mem _ (List.mem_cons_self _ _))
    (by decide) (by decide)
  refine ⟨?_, ?_, ?_, ?_⟩
  · exact (h.1 [c5A, c5B] c5A c5B).mpr
      ⟨List.mem_cons_self _ _,
       70200, rfl, by decide, by decide, by decide, by decide⟩
  · exact hmerge.2.2.2.1 c5A (List.mem_cons_self _ _) rfl
  · exact hmerge.2.2.2.2
  · exact hmerge.2.1 ⟨some "JB", 70700, 1, 1, 0⟩ (List.mem_cons_self _ _)
      rfl

-- ================= CLAIM C6 =================

lemma endFn_journey_id (jid : String) (ts : Int) (r : Journey) :
    (endFn jid ts r).journey_id = r.journey_id := by
  unfold endFn
  split <;> rfl

lemma rowSweep_active_eq (ets : Journey → Int) (L : List Journey) :
    ∀ r, (rowSweep ets L r).status = "active" →
      rowSweep ets L r = r ∧ ∀ j ∈ L, j.journey_id ≠ r.journey_id := by
  induction L with
  | nil => intro r _; exact ⟨rfl, by simp⟩
  | cons j L ih =>
    intro r h
    by_cases hid : r.journey_id = j.journey_id
    · have her : endFn j.journey_id (ets j) r =
          { r with status := "ended", end_timestamp := some (ets j) } := by
        simp [endFn, hid]
      rw [show rowSweep ets (j :: L) r =
          rowSweep ets L (endFn j.journey_id (ets j) r) from rfl, her] at h
      rcases ih _ h with ⟨heq, _⟩
      rw [heq] at h
      simp at h
    · have her : endFn j.journey_id (ets j) r = r := by simp [endFn, hid]
      rw [show rowSweep ets (j :: L) r =
          rowSweep ets L (endFn j.journey_id (ets j) r) from rfl, her] at h
      rcases ih r h with ⟨heq, hall⟩
      refine ⟨by
        rw [show rowSweep ets (j :: L) r =
            rowSweep ets L (endFn j.journey_id (ets j) r) from rfl, her,
          heq], ?_⟩
      intro k hk
      rcases List.mem_cons.mp hk with hk | hk
      · subst hk
        exact fun hc => hid hc.symm
      · exact hall k hk

lemma isStale_active {tps : List TripPoint} {now : Int} {j : Journey}
    (h : isStale tps now j = true) : j.status = "active" := by
  unfold isStale at h
  rw [Bool.and_eq_true] at h
  exact eq_of_beq h.1

lemma filter_isStale_sweep (db : List Journey) (tps : List TripPoint)
    (now : Int) (ets : Journey → Int) :
    (db.map (rowSweep ets (db.filter (isStale tps now)))).filter
        (isStale tps now) = [] := by
  rw [List.filter_eq_nil_iff]
  intro r' hr' hstale'
  rcases List.mem_map.mp hr' with ⟨r, hr, hmap⟩
  have hact : r'.status = "active" := isStale_active hstale'
  rw [← hmap] at hact
  rcases rowSweep_active_eq ets _ r hact with ⟨heq, hall⟩
  have hstr : isStale tps now r = true := by
    rw [← hmap, heq] at hstale'
    exact hstale'
  exact hall r (List.mem_filter.mpr ⟨hr, hstr⟩) rfl

/-- C6: running either stale-journey sweep twice at the same instant with
the same sample table changes nothing the second time: every journey closed
by the first run is `'ended'`, the second run's stale selection is empty,
and the store after the second run equals the store after the first. -/
theorem C6_stale_sweep_idempotent (db : List Journey)
    (tps : List TripPoint) (now : Int) :
    auto_end_stale_journeys (auto_end_stale_journeys db tps now) tps now =
      auto_end_stale_journeys db tps now ∧
    end_stale_journeys (end_stale_journeys db tps now) tps now =
      end_stale_journeys db tps now ∧
    (auto_end_stale_journeys db tps now).filter (isStale tps now) = [] ∧
    (end_stale_journeys db tps now).filter (isStale tps now) = [] := by
  have hauto : (auto_end_stale_journeys db tps now).filter
      (isStale tps now) = [] := by
    unfold auto_end_stale_journeys
    rw [foldl_end_eq_map]
    exact filter_isStale_sweep db tps now _
  have hend : (end_stale_journeys db tps now).filter
      (isStale tps now) = [] := by
    unfold end_stale_journeys
    rw [foldl_end_eq_map]
    exact filter_isStale_sweep db tps now _
  refine ⟨?_, ?_, hauto, hend⟩
  · have hrfl : auto_end_stale_journeys
        (auto_end_stale_journeys db tps now) tps now =
        ((auto_end_stale_journeys db tps now).filter
          (isStale tps now)).foldl
          (fun d j => end_journey j.journey_id (autoEndTs tps now j) d)
          (auto_end_stale_journeys db tps now) := rfl
    rw [hrfl, hauto]
    rfl
  · have hrfl : end_stale_journeys
        (end_stale_journeys db tps now) tps now =
        ((end_stale_journeys db tps now).filter (isStale tps now)).foldl
          (fun d j => end_journey j.journey_id (endpointEndTs tps j) d)
          (end_stale_journeys db tps now) := rfl
    rw [hrfl, hend]
    rfl

-- ================= CLAIMS C8 / C9 / C10 =================

/-- All batches `match_points_valhalla` submits for an input, in submission
order. -/
def allBatches (dist : Coord → Coord → ℚ) (rows : List RawPoint) :
    List (List RawPoint) :=
  ((segments (jitterFilter dist rows)).map mkBatches).flatten

lemma flatten_map_flatten (f : List RawPoint → List Coord)
    (g : List RawPoint → List (List RawPoint)) :
    ∀ segs : List (List RawPoint),
      (segs.map (fun s => ((g s).map f).flatten)).flatten =
        ((segs.map g).flatten.map f).flatten := by
  intro segs
  induction segs with
  | nil => rfl
  | cons s segs ih =>
    simp only [List.map_cons, List.flatten_cons, List.map_append,
      List.flatten_append, ih]

lemma match_eq_flatten (dist : Coord → Coord → ℚ) (oracle : MatchOracle)
    (rows : List RawPoint) (h1 : ¬ rows.length < 2)
    (h2 : ¬ (jitterFilter dist rows).length < 2) :
    match_points_valhalla dist oracle rows =
      ((allBatches dist rows).map (batchOutput oracle)).flatten := by
  unfold match_points_valhalla
  rw [if_neg h1]
  dsimp only
  rw [if_neg h2]
  exact flatten_map_flatten (batchOutput oracle) mkBatches _

/-- C8: for every submitted batch whose call fails (non-200/exception,
modelled `oracle b = none`) or returns no leg geometry
(`oracle b = some []`), the output contains exactly that batch's raw
`(lat, lon)` points in order, between the concatenated outputs of the
batches before and after it in submission order. -/
theorem C8_failed_batch_fallback (dist : Coord → Coord → ℚ)
    (oracle : MatchOracle) (rows : List RawPoint)
    (L R : List (List RawPoint)) (b : List RawPoint)
    (h1 : 2 ≤ rows.length) (h2 : 2 ≤ (jitterFilter dist rows).length)
    (hsplit : allBatches dist rows = L ++ b :: R)
    (hfail : oracle b = none ∨ oracle b = some []) :
    match_points_valhalla dist oracle rows =
      (L.map (batchOutput oracle)).flatten ++
        b.map (fun r => (r.lat, r.lon)) ++
        (R.map (batchOutput oracle)).flatten := by
  rw [match_eq_flatten dist oracle rows (by omega) (by omega), hsplit]
  have hb : batchOutput oracle b = b.map (fun r => (r.lat, r.lon)) := by
    rcases hfail with h | h <;> simp [batchOutput, h]
  simp only [List.map_append, List.flatten_append, List.map_cons,
    List.flatten_cons, hb, List.append_assoc]

/-- A constant distance of 1 km keeps every point in the jitter filter
(used only by witnesses). -/
lemma jitterGo_const_one (rest : List RawPoint) :
    ∀ r, jitterGo (fun _ _ => 1) r rest = rest := by
  induction rest with
  | nil => intro r; rfl
  | cons s rest ih =>
    intro r
    unfold jitterGo
    rw [if_pos (by norm_num), ih]

lemma jitterFilter_const_one (rows : List RawPoint) :
    jitterFilter (fun _ _ => 1) rows = rows := by
  cases rows with
  | nil => rfl
  | cons r rest =>
    rw [show jitterFilter (fun _ _ => 1) (r :: rest) =
      r :: jitterGo (fun _ _ => 1) r rest from rfl]
    rw [jitterGo_const_one rest r]

/-- Witness for C8 at a concrete input: a two-point batch whose call fails
yields exactly the two raw points. -/
theorem C8_witness :
    match_points_valhalla (fun _ _ => 1) (fun _ => none)
      [⟨0, 0, 0⟩, ⟨1, 1, 10⟩] = [(0, 0), (1, 1)] := by
  have h := C8_failed_batch_fallback (fun _ _ => 1) (fun _ => none)
    [⟨0, 0, 0⟩, ⟨1, 1, 10⟩] [] [] [⟨0, 0, 0⟩, ⟨1, 1, 10⟩]
    (by norm_num) (by rw [jitterFilter_const_one]; norm_num)
    (by unfold allBatches
        rw [jitterFilter_const_one]
        decide)
    (Or.inl rfl)
  simpa using h

lemma segGo_eq_filter :
    ∀ (rows cur : List RawPoint),
      segGo cur rows =
        (splitGo cur rows).filter (fun s => decide (2 ≤ s.length)) := by
  intro rows
  induction rows with
  | nil =>
    intro cur
    by_cases hlen : 2 ≤ cur.length <;> simp [segGo, splitGo, hlen]
  | cons row rest ih =>
    intro cur
    unfold segGo splitGo
    by_cases hgap : row.ts - (cur.getLastD ⟨0, 0, 0⟩).ts > 600
    · rw [if_pos hgap, if_pos hgap, List.filter_cons]
      by_cases hlen : 2 ≤ cur.length <;> simp [hlen, ih]
    · rw [if_neg hgap, if_neg hgap]
      exact ih (cur ++ [row])

lemma segments_eq_filter (rows : List RawPoint) :
    segments rows =
      (splitGaps rows).filter (fun s => decide (2 ≤ s.length)) := by
  cases rows with
  | nil => rfl
  | cons r rest => exact segGo_eq_filter rest [r]

lemma splitGo_flatten :
    ∀ (rows cur : List RawPoint), (splitGo cur rows).flatten = cur ++ rows := by
  intro rows
  induction rows with
  | nil => intro cur; simp [splitGo]
  | cons row rest ih =>
    intro cur
    unfold splitGo
    by_cases hgap : row.ts - (cur.getLastD ⟨0, 0, 0⟩).ts > 600
    · rw [if_pos hgap]
      simp only [List.flatten_cons, ih]
      rfl
    · rw [if_neg hgap, ih]
      simp

lemma splitGaps_flatten (rows : List RawPoint) :
    (splitGaps rows).flatten = rows := by
  cases rows with
  | nil => rfl
  | cons r rest => exact splitGo_flatten rest [r]

lemma getLastD_of_getLast? {l : List RawPoint} {x : RawPoint}
    (d : RawPoint) (h : l.getLast? = some x) : l.getLastD d = x := by
  rw [List.getLastD_eq_getLast?, h]
  rfl

lemma splitGo_chain :
    ∀ (rows cur : List RawPoint), cur ≠ [] →
      List.Chain' (fun a b => b.ts - a.ts ≤ 600) cur →
      ∀ s ∈ splitGo cur rows,
        List.Chain' (fun a b => b.ts - a.ts ≤ 600) s := by
  intro rows
  induction rows with
  | nil =>
    intro cur _ hch s hs
    simp only [splitGo, List.mem_singleton] at hs
    exact hs ▸ hch
  | cons row rest ih =>
    intro cur hne hch s hs
    unfold splitGo at hs
    by_cases hgap : row.ts - (cur.getLastD ⟨0, 0, 0⟩).ts > 600
    · rw [if_pos hgap] at hs
      rcases List.mem_cons.mp hs with hs | hs
      · exact hs ▸ hch
      · exact ih [row] (by simp) (by simp) s hs
    · rw [if_neg hgap] at hs
      refine ih (cur ++ [row]) (by simp) ?_ s hs
      rw [List.chain'_append]
      refine ⟨hch, by simp, ?_⟩
      intro x hx y hy
      have hy' : row = y := by simpa using hy
      have hx' : cur.getLastD ⟨0, 0, 0⟩ = x :=
        getLastD_of_getLast? _ (Option.mem_def.mp hx)
      subst hy'
      rw [← hx']
      omega

lemma splitGo_head_structure :
    ∀ (rows cur : List RawPoint), cur ≠ [] →
      ∃ ext tl, splitGo cur rows = (cur ++ ext) :: tl := by
  intro rows
  induction rows with
  | nil => intro cur _; exact ⟨[], [], by simp [splitGo]⟩
  | cons row rest ih =>
    intro cur hne
    unfold splitGo
    by_cases hgap : row.ts - (cur.getLastD ⟨0, 0, 0⟩).ts > 600
    · rw [if_pos hgap]
      exact ⟨[], splitGo [row] rest, by simp⟩
    · rw [if_neg hgap]
      rcases ih (cur ++ [row]) (by simp) with ⟨ext, tl, heq⟩
      exact ⟨row :: ext, tl, by rw [heq]; simp⟩

lemma splitGo_boundary :
    ∀ (rows cur : List RawPoint), cur ≠ [] →
      List.Chain'
        (fun s t => ∀ x ∈ s.getLast?, ∀ y ∈ t.head?, y.ts - x.ts > 600)
        (splitGo cur rows) := by
  intro rows
  induction rows with
  | nil => intro cur _; simp [splitGo]
  | cons row rest ih =>
    intro cur hne
    unfold splitGo
    by_cases hgap : row.ts - (cur.getLastD ⟨0, 0, 0⟩).ts > 600
    · rw [if_pos hgap]
      rw [List.chain'_cons']
      constructor
      · intro t ht x hx y hy
        rcases splitGo_head_structure rest [row] (by simp) with
          ⟨ext, tl, heq⟩
        rw [heq] at ht
        have ht' : row :: ext = t := by simpa using ht
        subst ht'
        have hy' : row = y := by simpa using hy
        have hx' : cur.getLastD ⟨0, 0, 0⟩ = x :=
          getLastD_of_getLast? _ (Option.mem_def.mp hx)
        rw [← hy', ← hx']
        omega
      · exact ih [row] (by simp)
    · rw [if_neg hgap]
      exact ih (cur ++ [row]) (by simp)

lemma splitGaps_chain (rows : List RawPoint) :
    ∀ s ∈ splitGaps rows, List.Chain' (fun a b => b.ts - a.ts ≤ 600) s := by
  cases rows with
  | nil => simp [splitGaps]
  | cons r rest => exact splitGo_chain rest [r] (by simp) (by simp)

lemma splitGaps_boundary (rows : List RawPoint) :
    List.Chain'
      (fun s t => ∀ x ∈ s.getLast?, ∀ y ∈ t.head?, y.ts - x.ts > 600)
      (splitGaps rows) := by
  cases rows with
  | nil => simp [splitGaps]
  | cons r rest => exact splitGo_boundary rest [r] (by simp)

/-- The spec's gap-segmentation example: seven filtered samples with a
700-second gap between index 4 and index 5 and 10-second gaps elsewhere. -/
def c9rows : List RawPoint :=
  [⟨0, 0, 0⟩, ⟨1, 0, 10⟩, ⟨2, 0, 20⟩, ⟨3, 0, 30⟩, ⟨4, 0, 40⟩,
   ⟨5, 0, 740⟩, ⟨6, 0, 750⟩]

/-- C9: the gap split partitions the jitter-filtered sequence exactly at
>600 s gaps — the emitted `segments` are the pieces of that partition with
at least 2 points, the partition concatenates back to the input, every
piece is internally gap-free (≤ 600 s between consecutive samples), and
consecutive pieces are separated by a >600 s gap; each emitted segment is
batched and map-matched independently, and the spec's 700-second-gap
example yields exactly two segments. -/
theorem C9_gap_segmentation (dist : Coord → Coord → ℚ) :
    (∀ rows : List RawPoint,
      segments rows =
        (splitGaps rows).filter (fun s => decide (2 ≤ s.length))) ∧
    (∀ rows : List RawPoint, (splitGaps rows).flatten = rows) ∧
    (∀ (rows s : List RawPoint), s ∈ splitGaps rows →
      List.Chain' (fun a b => b.ts - a.ts ≤ 600) s) ∧
    (∀ rows : List RawPoint,
      List.Chain'
        (fun s t => ∀ x ∈ s.getLast?, ∀ y ∈ t.head?, y.ts - x.ts > 600)
        (splitGaps rows)) ∧
    (∀ (oracle : MatchOracle) (rows : List RawPoint),
      match_points_valhalla dist oracle rows =
        if rows.length < 2 ∨ (jitterFilter dist rows).length < 2 then []
        else ((segments (jitterFilter dist rows)).map
          (fun seg =>
            ((mkBatches seg).map (batchOutput oracle)).flatten)).flatten) ∧
    (segments c9rows =
      [[⟨0, 0, 0⟩, ⟨1, 0, 10⟩, ⟨2, 0, 20⟩, ⟨3, 0, 30⟩, ⟨4, 0, 40⟩],
       [⟨5, 0, 740⟩, ⟨6, 0, 750⟩]]) := by
  refine ⟨segments_eq_filter, splitGaps_flatten,
    fun rows s hs => splitGaps_chain rows s hs, splitGaps_boundary,
    ?_, by decide⟩
  intro oracle rows
  unfold match_points_valhalla
  by_cases h1 : rows.length < 2
  · rw [if_pos h1, if_pos (Or.inl h1)]
  · rw [if_neg h1]
    dsimp only
    by_cases h2 : (jitterFilter dist rows).length < 2
    · rw [if_pos h2, if_pos (Or.inr h2)]
    · rw [if_neg h2, if_neg (by tauto)]

/-- Witness for C9 at the concrete example: the first emitted piece is
internally gap-free and the split loses no sample. -/
theorem C9_witness :
    List.Chain' (fun a b => b.ts - a.ts ≤ 600)
      ([⟨0, 0, 0⟩, ⟨1, 0, 10⟩, ⟨2, 0, 20⟩, ⟨3, 0, 30⟩, ⟨4, 0, 40⟩] :
        List RawPoint) ∧
    (splitGaps c9rows).flatten = c9rows :=
  ⟨(C9_gap_segmentation (fun _ _ => 1)).2.2.1 c9rows
     [⟨0, 0, 0⟩, ⟨1, 0, 10⟩, ⟨2, 0, 20⟩, ⟨3, 0, 30⟩, ⟨4, 0, 40⟩]
     (by decide),
   (C9_gap_segmentation (fun _ _ => 1)).2.1 c9rows⟩

/-- C10: the reconstructor silently drops points — any input with fewer
than 2 rows, or fewer than 2 rows surviving the jitter filter, returns the
empty route, and a gap-split piece with fewer than 2 points is never among
the emitted segments, so the final output is built only from the ≥2-point
pieces (each with its per-batch raw fallback). -/
theorem C10_short_segments_dropped (dist : Coord → Coord → ℚ) :
    (∀ (oracle : MatchOracle) (rows : List RawPoint), rows.length < 2 →
      match_points_valhalla dist oracle rows = []) ∧
    (∀ (oracle : MatchOracle) (rows : List RawPoint),
      (jitterFilter dist rows).length < 2 →
      match_points_valhalla dist oracle rows = []) ∧
    (∀ (rows s : List RawPoint), s ∈ splitGaps (jitterFilter dist rows) →
      s.length < 2 → s ∉ segments (jitterFilter dist rows)) ∧
    (∀ (oracle : MatchOracle) (rows : List RawPoint),
      match_points_valhalla dist oracle rows =
        if rows.length < 2 ∨ (jitterFilter dist rows).length < 2 then []
        else (((splitGaps (jitterFilter dist rows)).filter
            (fun s => decide (2 ≤ s.length))).map
          (fun seg =>
            ((mkBatches seg).map (batchOutput oracle)).flatten)).flatten) := by
  refine ⟨?_, ?_, ?_, ?_⟩
  · intro oracle rows h
    unfold match_points_valhalla
    rw [if_pos h]
  · intro oracle rows h
    unfold match_points_valhalla
    by_cases h1 : rows.length < 2
    · rw [if_pos h1]
    · rw [if_neg h1]
      dsimp only
      rw [if_pos h]
  · intro rows s _ hlen hmem
    rw [segments_eq_filter] at hmem
    have := (List.mem_filter.mp hmem).2
    simp only [decide_eq_true_eq] at this
    omega
  · intro oracle rows
    unfold match_points_valhalla
    by_cases h1 : rows.length < 2
    · rw [if_pos h1, if_pos (Or.inl h1)]
    · rw [if_neg h1]
      dsimp only
      by_cases h2 : (jitterFilter dist rows).length < 2
      · rw [if_pos h2, if_pos (Or.inr h2)]
      · rw [if_neg h2, if_neg (by tauto), segments_eq_filter]

/-- Witness for C10 at concrete inputs: a one-point input yields the empty
route, and the one-point piece created by an immediate 700-second gap is
dropped from the emitted segments. -/
theorem C10_witness :
    match_points_valhalla (fun _ _ => 1) (fun _ => none) [⟨0, 0, 0⟩] = [] ∧
    ([⟨0, 0, 0⟩] : List RawPoint) ∉
      segments (jitterFilter (fun _ _ => 1)
        [⟨0, 0, 0⟩, ⟨1, 0, 700⟩, ⟨2, 0, 710⟩]) := by
  constructor
  · exact (C10_short_segments_dropped (fun _ _ => 1)).1 (fun _ => none)
      [⟨0, 0, 0⟩] (by norm_num)
  · exact (C10_short_segments_dropped (fun _ _ => 1)).2.2.1
      [⟨0, 0, 0⟩, ⟨1, 0, 700⟩, ⟨2, 0, 710⟩] [⟨0, 0, 0⟩]
      (by rw [jitterFilter_const_one]; decide) (by norm_num)
